import Mathlib

/-!
Verification of the thumbgrid core against its specification.

The development shallowly embeds three parts of the repository:

* the render scheduler of src/internal/term/scheduler.go as a labelled
  transition system over an explicit state (queue, generation counter,
  delivered draws, signalled drain barriers);
* the thumbnail worker pool of src/cmd/thumbgrid/main.go (ready map,
  in-flight set, bounded dispatch queue);
* the generation service of src/internal/thumb/service.go as a pure
  function over an explicit environment (stat results, tool availability,
  tool outcomes) and a file-system state, recording every external
  subprocess invocation.
-/

namespace Thumbgrid

namespace Sched

/-- A draw request as held in the scheduler queue: either an ordinary draw
(path, cell geometry, generation tag) or a drain barrier carrying the done
channel, identified here by a unique id.  Mirrors DrawReq in scheduler.go:
a request with a non-nil done channel is a barrier. -/
inductive Req where
  | ord (path : String) (x y w h : Int) (gen : Nat)
  | barrier (id : Nat) (gen : Nat)
deriving DecidableEq, Repr

/-- The generation tag of a request (field gen of DrawReq). -/
def Req.tag : Req → Nat
  | .ord _ _ _ _ _ g => g
  | .barrier _ g => g

/-- A draw actually delivered to the Renderer Draw primitive. -/
structure Draw where
  path : String
  x : Int
  y : Int
  w : Int
  h : Int
deriving DecidableEq, Repr

/-- Scheduler state: the buffered channel is the FIFO list queue with
capacity cap; gen is the atomic generation counter; delivered records the
calls made to Renderer.Draw in order; signaled records the ids of drain
barriers whose done channel has been closed; nextId supplies fresh barrier
ids (each Drain call allocates a fresh done channel). -/
structure State where
  cap : Nat
  queue : List Req
  gen : Nat
  delivered : List Draw
  signaled : List Nat
  nextId : Nat
deriving DecidableEq, Repr

/-- NewScheduler: buffer size buf, defaulting to 64 when buf <= 0, empty
queue, generation counter initialised to 1. -/
def initState (buf : Int) : State :=
  { cap := if buf ≤ 0 then 64 else buf.toNat
    queue := []
    gen := 1
    delivered := []
    signaled := []
    nextId := 0 }

/-- Enqueue (scheduler.go lines 54-60): read the current generation, then a
non-blocking send; when the buffered channel is full the request is
silently dropped and the state is unchanged. -/
def enqueueF (p : String) (x y w h : Int) (s : State) : State :=
  if s.queue.length < s.cap then
    { s with queue := s.queue ++ [.ord p x y w h s.gen] }
  else
    s

/-- NextFrame (scheduler.go lines 68-70): atomically increment the
generation counter. -/
def nextFrameF (s : State) : State :=
  { s with gen := s.gen + 1 }

/-- The queue insertion performed by Drain (scheduler.go line 64): a
blocking send of a barrier request tagged with the current generation and a
fresh done channel.  The enabling condition (space in the queue) lives in
the step relation, not here. -/
def drainPushF (s : State) : State :=
  { s with queue := s.queue ++ [.barrier s.nextId s.gen]
           nextId := s.nextId + 1 }

/-- One iteration of the consumer loop (scheduler.go lines 33-52) on a
non-empty queue: a barrier request closes its done channel and does nothing
else; an ordinary request whose tag differs from the current generation is
dropped; otherwise Renderer.Draw is invoked. -/
def consumeF (s : State) : State :=
  match s.queue with
  | [] => s
  | .barrier id _ :: rest =>
      { s with queue := rest, signaled := s.signaled ++ [id] }
  | .ord p x y w h g :: rest =>
      if g ≠ s.gen then
        { s with queue := rest }
      else
        { s with queue := rest, delivered := s.delivered ++ [⟨p, x, y, w, h⟩] }

/-- Labels for the scheduler transitions. -/
inductive Label where
  | enqueue (path : String) (x y w h : Int)
  | nextFrame
  | drainSubmit
  | consume
deriving DecidableEq, Repr

/-- Labelled transition relation of the scheduler.  Enqueue and NextFrame
are always enabled (non-blocking); the Drain submission is enabled only
when the queue has space (blocking send); the consumer step is enabled only
on a non-empty queue (blocking receive). -/
inductive Step : State → Label → State → Prop where
  | enqueue (s : State) (p : String) (x y w h : Int) :
      Step s (.enqueue p x y w h) (enqueueF p x y w h s)
  | nextFrame (s : State) :
      Step s .nextFrame (nextFrameF s)
  | drainSubmit (s : State) (h : s.queue.length < s.cap) :
      Step s .drainSubmit (drainPushF s)
  | consume (s : State) (h : s.queue ≠ []) :
      Step s .consume (consumeF s)

/-- Some transition with any label. -/
def StepAny (s s' : State) : Prop := ∃ l, Step s l s'

/-- Reachability from a freshly constructed scheduler. -/
def Reachable (s : State) : Prop :=
  ∃ buf, Relation.ReflTransGen StepAny (initState buf) s

/-- Ids of the barrier requests in a list of requests, in order. -/
def barrierIds (l : List Req) : List Nat :=
  l.filterMap fun r =>
    match r with
    | .barrier id _ => some id
    | .ord _ _ _ _ _ _ => none

/-- State invariant of the scheduler: every queued request carries a tag
not exceeding the current generation; pending and already signalled barrier
ids are pairwise distinct; all allocated ids are below the fresh-id
counter. -/
def SchedInv (s : State) : Prop :=
  (∀ r ∈ s.queue, Req.tag r ≤ s.gen) ∧
  (barrierIds s.queue ++ s.signaled).Nodup ∧
  (∀ i ∈ barrierIds s.queue ++ s.signaled, i < s.nextId)

lemma barrierIds_append (l₁ l₂ : List Req) :
    barrierIds (l₁ ++ l₂) = barrierIds l₁ ++ barrierIds l₂ := by
  simp [barrierIds]

lemma barrierIds_ord (p : String) (x y w h : Int) (g : Nat) :
    barrierIds [.ord p x y w h g] = [] := by
  simp [barrierIds]

lemma barrierIds_barrier (id g : Nat) :
    barrierIds [.barrier id g] = [id] := by
  simp [barrierIds]

lemma barrierIds_cons_barrier (id g : Nat) (rest : List Req) :
    barrierIds (.barrier id g :: rest) = id :: barrierIds rest := by
  simp [barrierIds]

lemma barrierIds_cons_ord (p : String) (x y w h : Int) (g : Nat)
    (rest : List Req) :
    barrierIds (.ord p x y w h g :: rest) = barrierIds rest := by
  simp [barrierIds]

lemma schedInv_init (buf : Int) : SchedInv (initState buf) := by
  refine ⟨?_, ?_, ?_⟩ <;> simp [initState, barrierIds]

lemma consumeF_eq_nil (s : State) (hq : s.queue = []) : consumeF s = s := by
  unfold consumeF
  rw [hq]

lemma consumeF_eq_barrier (s : State) (id g : Nat) (rest : List Req)
    (hq : s.queue = .barrier id g :: rest) :
    consumeF s = { s with queue := rest, signaled := s.signaled ++ [id] } := by
  unfold consumeF
  rw [hq]

lemma consumeF_eq_ord_stale (s : State) (p : String) (x y w h : Int)
    (g : Nat) (rest : List Req) (hq : s.queue = .ord p x y w h g :: rest)
    (hg : g ≠ s.gen) :
    consumeF s = { s with queue := rest } := by
  unfold consumeF
  rw [hq]
  simp [hg]

lemma consumeF_eq_ord_fresh (s : State) (p : String) (x y w h : Int)
    (g : Nat) (rest : List Req) (hq : s.queue = .ord p x y w h g :: rest)
    (hg : g = s.gen) :
    consumeF s =
      { s with queue := rest
               delivered := s.delivered ++ [⟨p, x, y, w, h⟩] } := by
  unfold consumeF
  rw [hq]
  simp [hg]

lemma consumeF_gen (s : State) : (consumeF s).gen = s.gen := by
  unfold consumeF
  rcases hq : s.queue with _ | ⟨r, rest⟩
  · rfl
  · cases r <;> simp <;> split <;> rfl

lemma consumeF_cap (s : State) : (consumeF s).cap = s.cap := by
  unfold consumeF
  rcases hq : s.queue with _ | ⟨r, rest⟩
  · rfl
  · cases r <;> simp <;> split <;> rfl

lemma consumeF_nextId (s : State) : (consumeF s).nextId = s.nextId := by
  unfold consumeF
  rcases hq : s.queue with _ | ⟨r, rest⟩
  · rfl
  · cases r <;> simp <;> split <;> rfl

lemma consumeF_queue (s : State) (r : Req) (rest : List Req)
    (hq : s.queue = r :: rest) : (consumeF s).queue = rest := by
  unfold consumeF
  rw [hq]
  cases r <;> simp <;> split <;> rfl

lemma schedInv_enqueue (s : State) (p : String) (x y w h : Int)
    (hs : SchedInv s) : SchedInv (enqueueF p x y w h s) := by
  obtain ⟨h1, h2, h3⟩ := hs
  unfold enqueueF
  split
  · refine ⟨?_, ?_, ?_⟩
    · intro r hr
      simp only [List.mem_append, List.mem_singleton] at hr
      rcases hr with hr | hr
      · exact h1 r hr
      · subst hr; simp [Req.tag]
    · simpa [barrierIds_append, barrierIds_ord] using h2
    · simpa [barrierIds_append, barrierIds_ord] using h3
  · exact ⟨h1, h2, h3⟩

lemma schedInv_nextFrame (s : State) (hs : SchedInv s) :
    SchedInv (nextFrameF s) := by
  obtain ⟨h1, h2, h3⟩ := hs
  refine ⟨?_, h2, h3⟩
  intro r hr
  exact le_trans (h1 r hr) (Nat.le_succ _)

lemma schedInv_drainPush (s : State) (hs : SchedInv s) :
    SchedInv (drainPushF s) := by
  obtain ⟨h1, h2, h3⟩ := hs
  have hnotmem : s.nextId ∉ barrierIds s.queue ++ s.signaled := by
    intro hmem
    exact lt_irrefl _ (h3 _ hmem)
  have hperm :
      ((barrierIds s.queue ++ [s.nextId]) ++ s.signaled).Perm
        (s.nextId :: (barrierIds s.queue ++ s.signaled)) := by
    have hp1 : (barrierIds s.queue ++ [s.nextId]).Perm
        (s.nextId :: barrierIds s.queue) := List.perm_append_singleton _ _
    simpa using hp1.append_right s.signaled
  refine ⟨?_, ?_, ?_⟩
  · intro r hr
    simp only [drainPushF, List.mem_append, List.mem_singleton] at hr
    simp only [drainPushF]
    rcases hr with hr | hr
    · exact h1 r hr
    · subst hr; simp [Req.tag]
  · have hnodup : (s.nextId :: (barrierIds s.queue ++ s.signaled)).Nodup :=
      List.nodup_cons.mpr ⟨hnotmem, h2⟩
    have hres := hperm.symm.nodup hnodup
    simpa [drainPushF, barrierIds_append, barrierIds_barrier] using hres
  · intro i hi
    simp only [drainPushF, barrierIds_append, barrierIds_barrier] at hi
    simp only [drainPushF]
    simp only [List.mem_append, List.mem_singleton] at hi
    rcases hi with (hi | hi) | hi
    · exact lt_trans (h3 i (by simp [hi])) (Nat.lt_succ_self _)
    · subst hi; exact Nat.lt_succ_self _
    · exact lt_trans (h3 i (by simp [hi])) (Nat.lt_succ_self _)

lemma schedInv_consume (s : State) (hs : SchedInv s) :
    SchedInv (consumeF s) := by
  obtain ⟨h1, h2, h3⟩ := hs
  rcases hq : s.queue with _ | ⟨r, rest⟩
  · rw [consumeF_eq_nil s hq]
    exact ⟨h1, h2, h3⟩
  · rw [hq] at h1 h2 h3
    cases r with
    | barrier id g =>
        rw [consumeF_eq_barrier s id g rest hq]
        have hperm :
            (barrierIds rest ++ (s.signaled ++ [id])).Perm
              (id :: (barrierIds rest ++ s.signaled)) := by
          have hp1 : ((barrierIds rest ++ s.signaled) ++ [id]).Perm
              (id :: (barrierIds rest ++ s.signaled)) :=
            List.perm_append_singleton _ _
          simpa [List.append_assoc] using hp1
        rw [barrierIds_cons_barrier] at h2 h3
        refine ⟨?_, ?_, ?_⟩
        · intro r hr
          exact h1 r (by simp [hr])
        · exact hperm.symm.nodup (by simpa using h2)
        · intro i hi
          have hmem := hperm.mem_iff.mp hi
          exact h3 i (by simpa using hmem)
    | ord p x y w h g =>
        rw [barrierIds_cons_ord] at h2 h3
        by_cases hg : g = s.gen
        · rw [consumeF_eq_ord_fresh s p x y w h g rest hq hg]
          exact ⟨fun r hr => h1 r (by simp [hr]), h2, h3⟩
        · rw [consumeF_eq_ord_stale s p x y w h g rest hq hg]
          exact ⟨fun r hr => h1 r (by simp [hr]), h2, h3⟩

lemma schedInv_step (s s' : State) (h : StepAny s s') (hs : SchedInv s) :
    SchedInv s' := by
  obtain ⟨l, hstep⟩ := h
  cases hstep with
  | enqueue p x y w h => exact schedInv_enqueue _ p x y w h hs
  | nextFrame => exact schedInv_nextFrame _ hs
  | drainSubmit hlt => exact schedInv_drainPush _ hs
  | consume hne => exact schedInv_consume _ hs

lemma reachable_schedInv (s : State) (h : Reachable s) : SchedInv s := by
  obtain ⟨buf, hr⟩ := h
  induction hr with
  | refl => exact schedInv_init buf
  | tail _ hstep ih => exact schedInv_step _ _ hstep ih

lemma stepAny_gen_mono (s s' : State) (h : StepAny s s') : s.gen ≤ s'.gen := by
  obtain ⟨l, hstep⟩ := h
  cases hstep with
  | enqueue p x y w h =>
      unfold enqueueF
      split <;> simp
  | nextFrame => exact Nat.le_succ _
  | drainSubmit hlt => simp [drainPushF]
  | consume hne => rw [consumeF_gen]

/-- Iterated consumer steps. -/
def consumeN : Nat → State → State
  | 0, s => s
  | n + 1, s => consumeN n (consumeF s)

/-- The draws that the consumer performs while processing a list of
requests under a fixed generation g: exactly the ordinary requests whose
tag equals g, in order. -/
def drawsOf (g : Nat) (l : List Req) : List Draw :=
  l.filterMap fun r =>
    match r with
    | .ord p x y w h g' => if g' = g then some ⟨p, x, y, w, h⟩ else none
    | .barrier _ _ => none

lemma drawsOf_cons_barrier (g id gb : Nat) (l : List Req) :
    drawsOf g (.barrier id gb :: l) = drawsOf g l := by
  simp [drawsOf]

lemma drawsOf_cons_ord (g : Nat) (p : String) (x y w h : Int) (g' : Nat)
    (l : List Req) :
    drawsOf g (.ord p x y w h g' :: l) =
      (if g' = g then [(⟨p, x, y, w, h⟩ : Draw)] else []) ++ drawsOf g l := by
  by_cases hg : g' = g <;> simp [drawsOf, hg]

/-- Processing a known front segment of the queue: after exactly one
consumer step per request in that segment, the segment is gone, the
generation is unchanged, the barriers of the segment have been signalled in
order, and exactly the fresh ordinary requests of the segment have been
delivered, in order. -/
lemma consumeN_processes (pre : List Req) :
    ∀ (s : State) (rest : List Req), s.queue = pre ++ rest →
      (consumeN pre.length s).queue = rest ∧
      (consumeN pre.length s).gen = s.gen ∧
      (consumeN pre.length s).signaled = s.signaled ++ barrierIds pre ∧
      (consumeN pre.length s).delivered = s.delivered ++ drawsOf s.gen pre := by
  induction pre with
  | nil =>
      intro s rest hq
      simp only [List.nil_append] at hq
      simp [consumeN, barrierIds, drawsOf, hq]
  | cons r pre ih =>
      intro s rest hq
      have hstep : consumeN (r :: pre).length s =
          consumeN pre.length (consumeF s) := rfl
      cases r with
      | barrier id g =>
          have hc := consumeF_eq_barrier s id g (pre ++ rest) (by simpa using hq)
          obtain ⟨ih1, ih2, ih3, ih4⟩ := ih (consumeF s) rest (by rw [hc])
          rw [hstep]
          refine ⟨ih1, ?_, ?_, ?_⟩
          · rw [ih2, hc]
          · rw [ih3, hc, barrierIds_cons_barrier]
            simp
          · rw [ih4, hc, drawsOf_cons_barrier]
      | ord p x y w h g =>
          by_cases hg : g = s.gen
          · have hc := consumeF_eq_ord_fresh s p x y w h g (pre ++ rest)
              (by simpa using hq) hg
            obtain ⟨ih1, ih2, ih3, ih4⟩ := ih (consumeF s) rest (by rw [hc])
            rw [hstep]
            refine ⟨ih1, ?_, ?_, ?_⟩
            · rw [ih2, hc]
            · rw [ih3, hc, barrierIds_cons_ord]
            · rw [ih4, hc, drawsOf_cons_ord]
              simp [hg]
          · have hc := consumeF_eq_ord_stale s p x y w h g (pre ++ rest)
              (by simpa using hq) hg
            obtain ⟨ih1, ih2, ih3, ih4⟩ := ih (consumeF s) rest (by rw [hc])
            rw [hstep]
            refine ⟨ih1, ?_, ?_, ?_⟩
            · rw [ih2, hc]
            · rw [ih3, hc, barrierIds_cons_ord]
            · rw [ih4, hc, drawsOf_cons_ord]
              simp [hg]

lemma enqueueF_full_eq (s : State) (p : String) (x y w h : Int)
    (hfull : s.queue.length = s.cap) :
    enqueueF p x y w h s = s := by
  unfold enqueueF
  rw [if_neg (by omega)]

/-- C1: when the consumer dequeues an ordinary Draw Request whose
generation tag differs from the current value of the generation counter,
the request is removed from the queue without invoking Renderer.Draw
(conjunct 1); in every reachable state each queued request carries a tag
not exceeding the counter, so after a NextFrame every request that was
enqueued earlier has a strictly smaller tag (conjunct 2); the counter never
decreases along any transition (conjunct 3), hence such a request still
fails the tag check when it is eventually dequeued and is never
delivered. -/
theorem C1_stale_request_dropped :
    (∀ (s : State) (p : String) (x y w h : Int) (g : Nat) (rest : List Req),
        s.queue = Req.ord p x y w h g :: rest → g ≠ s.gen →
        (consumeF s).delivered = s.delivered ∧ (consumeF s).queue = rest) ∧
    (∀ s : State, Reachable s →
        ∀ r ∈ (nextFrameF s).queue, Req.tag r < (nextFrameF s).gen) ∧
    (∀ s s' : State, StepAny s s' → s.gen ≤ s'.gen) := by
  refine ⟨?_, ?_, stepAny_gen_mono⟩
  · intro s p x y w h g rest hq hg
    rw [consumeF_eq_ord_stale s p x y w h g rest hq hg]
    exact ⟨rfl, rfl⟩
  · intro s hreach r hmem
    have h1 := (reachable_schedInv s hreach).1
    have hle : Req.tag r ≤ s.gen := h1 r (by simpa [nextFrameF] using hmem)
    simp only [nextFrameF]
    omega

theorem C1_stale_request_dropped_witness :
    ((consumeF (nextFrameF (enqueueF "a" 1 2 3 4 (initState 4)))).delivered =
        (nextFrameF (enqueueF "a" 1 2 3 4 (initState 4))).delivered ∧
      (consumeF (nextFrameF (enqueueF "a" 1 2 3 4 (initState 4)))).queue =
        []) ∧
    Req.tag (Req.ord "a" 1 2 3 4 1) <
      (nextFrameF (enqueueF "a" 1 2 3 4 (initState 4))).gen := by
  have hreach : Reachable (enqueueF "a" 1 2 3 4 (initState 4)) :=
    ⟨4, Relation.ReflTransGen.single ⟨_, Step.enqueue _ "a" 1 2 3 4⟩⟩
  constructor
  · exact C1_stale_request_dropped.1 _ "a" 1 2 3 4 1 [] (by decide) (by decide)
  · exact C1_stale_request_dropped.2.1 _ hreach (Req.ord "a" 1 2 3 4 1)
      (by decide)

/-- C3: for a reachable scheduler state whose queue is pre followed by a
drain barrier, the consumer processes all of pre first (one request per
step, each delivered or dropped, with exactly the fresh ordinary requests
of pre delivered); up to that point the barrier has not signalled its done
channel; the step that dequeues the barrier closes the done channel
immediately, performs no draw, and does so with no condition on the
barrier generation tag g (g is universally quantified and unconstrained),
so the barrier is never generation-checked. -/
theorem C3_drain_barrier (s : State) (hreach : Reachable s)
    (pre : List Req) (id g : Nat) (post : List Req)
    (hq : s.queue = pre ++ Req.barrier id g :: post) :
    ((consumeN pre.length s).queue = Req.barrier id g :: post) ∧
    (id ∉ (consumeN pre.length s).signaled) ∧
    ((consumeN pre.length s).delivered = s.delivered ++ drawsOf s.gen pre) ∧
    ((consumeF (consumeN pre.length s)).signaled =
        (consumeN pre.length s).signaled ++ [id]) ∧
    ((consumeF (consumeN pre.length s)).delivered =
        (consumeN pre.length s).delivered) ∧
    ((consumeF (consumeN pre.length s)).queue = post) := by
  obtain ⟨hqueue, hgen, hsig, hdel⟩ := consumeN_processes pre s _ hq
  have hnodup := (reachable_schedInv s hreach).2.1
  rw [hq, barrierIds_append, barrierIds_cons_barrier] at hnodup
  have hsplit := List.nodup_append.mp hnodup
  have hid2 : id ∉ s.signaled := hsplit.2.2 (by simp)
  have hid1 : id ∉ barrierIds pre := by
    intro hmem
    exact (List.nodup_append.mp hsplit.1).2.2 hmem (by simp)
  have hc := consumeF_eq_barrier (consumeN pre.length s) id g post hqueue
  refine ⟨hqueue, ?_, hdel, ?_, ?_, ?_⟩
  · rw [hsig]
    intro hmem
    rcases List.mem_append.mp hmem with hmem | hmem
    · exact hid2 hmem
    · exact hid1 hmem
  · rw [hc]
  · rw [hc]
  · rw [hc]

theorem C3_drain_barrier_witness :
    ((consumeN (List.length ([] : List Req))
        (drainPushF (initState 4))).queue = [Req.barrier 0 1]) ∧
    (0 ∉ (consumeN (List.length ([] : List Req))
        (drainPushF (initState 4))).signaled) ∧
    ((consumeN (List.length ([] : List Req))
        (drainPushF (initState 4))).delivered =
      (drainPushF (initState 4)).delivered ++
        drawsOf (drainPushF (initState 4)).gen []) ∧
    ((consumeF (consumeN (List.length ([] : List Req))
        (drainPushF (initState 4)))).signaled =
      (consumeN (List.length ([] : List Req))
        (drainPushF (initState 4))).signaled ++ [0]) ∧
    ((consumeF (consumeN (List.length ([] : List Req))
        (drainPushF (initState 4)))).delivered =
      (consumeN (List.length ([] : List Req))
        (drainPushF (initState 4))).delivered) ∧
    ((consumeF (consumeN (List.length ([] : List Req))
        (drainPushF (initState 4)))).queue = []) := by
  have hreach : Reachable (drainPushF (initState 4)) := by
    refine ⟨4, Relation.ReflTransGen.single ?_⟩
    exact ⟨_, Step.drainSubmit _ (by decide)⟩
  exact C3_drain_barrier (drainPushF (initState 4)) hreach [] 0 1 []
    (by decide)

/-- C7: Enqueue performs a non-blocking send; when the queue already holds
cap requests the state is left completely unchanged: the request never
enters the queue (hence is never delivered to the Renderer), nothing is
recorded, and the caller gets no notification of the drop. -/
theorem C7_enqueue_nonblocking (s : State) (p : String) (x y w h : Int)
    (hfull : s.queue.length = s.cap) :
    enqueueF p x y w h s = s :=
  enqueueF_full_eq s p x y w h hfull

theorem C7_enqueue_nonblocking_witness :
    enqueueF "b" 5 6 7 8 (enqueueF "a" 1 2 3 4 (initState 1)) =
      enqueueF "a" 1 2 3 4 (initState 1) :=
  C7_enqueue_nonblocking (enqueueF "a" 1 2 3 4 (initState 1)) "b" 5 6 7 8
    (by decide)

/-- C10: the Drain submission is a blocking send, in contrast with
Enqueue.  Conjunct 1: every drainSubmit transition appends the barrier to
the queue (the barrier is never discarded) and can only fire when the
queue has space.  Conjunct 2: from a full queue no drainSubmit transition
exists at all, in particular none that drops the barrier: Drain waits.
Conjunct 3: from the same full queue the Enqueue transition does exist and
leaves the state unchanged, dropping the request.  Conjunct 4: as soon as
the consumer frees a slot, the drainSubmit transition becomes enabled. -/
theorem C10_drain_blocking_send :
    (∀ s s' : State, Step s .drainSubmit s' →
        s.queue.length < s.cap ∧ s' = drainPushF s ∧
        s'.queue = s.queue ++ [Req.barrier s.nextId s.gen]) ∧
    (∀ s : State, s.queue.length = s.cap →
        ¬ ∃ s', Step s .drainSubmit s') ∧
    (∀ (s : State) (p : String) (x y w h : Int), s.queue.length = s.cap →
        Step s (.enqueue p x y w h) s) ∧
    (∀ s : State, s.queue.length = s.cap → 0 < s.cap →
        ∃ s', Step (consumeF s) .drainSubmit s') := by
  refine ⟨?_, ?_, ?_, ?_⟩
  · intro s s' hstep
    cases hstep with
    | drainSubmit hlt => exact ⟨hlt, rfl, rfl⟩
  · rintro s hfull ⟨s', hstep⟩
    cases hstep with
    | drainSubmit hlt => omega
  · intro s p x y w h hfull
    have hstep := Step.enqueue s p x y w h
    rwa [enqueueF_full_eq s p x y w h hfull] at hstep
  · intro s hfull hpos
    rcases hq : s.queue with _ | ⟨r, rest⟩
    · rw [hq] at hfull
      simp at hfull
      omega
    · have hlen : rest.length + 1 = s.cap := by
        rw [hq] at hfull
        simpa using hfull
      refine ⟨_, Step.drainSubmit _ ?_⟩
      rw [consumeF_queue s r rest hq, consumeF_cap]
      omega

theorem C10_drain_blocking_send_witness :
    ((initState 1).queue.length < (initState 1).cap ∧
      drainPushF (initState 1) = drainPushF (initState 1) ∧
      (drainPushF (initState 1)).queue =
        (initState 1).queue ++ [Req.barrier 0 1]) ∧
    (¬ ∃ s', Step (enqueueF "a" 1 2 3 4 (initState 1)) .drainSubmit s') ∧
    Step (enqueueF "a" 1 2 3 4 (initState 1)) (.enqueue "b" 0 0 0 0)
      (enqueueF "a" 1 2 3 4 (initState 1)) ∧
    (∃ s', Step (consumeF (enqueueF "a" 1 2 3 4 (initState 1)))
      .drainSubmit s') := by
  refine ⟨?_, ?_, ?_, ?_⟩
  · exact C10_drain_blocking_send.1 (initState 1) (drainPushF (initState 1))
      (Step.drainSubmit _ (by decide))
  · exact C10_drain_blocking_send.2.1 (enqueueF "a" 1 2 3 4 (initState 1))
      (by decide)
  · exact C10_drain_blocking_send.2.2.1 (enqueueF "a" 1 2 3 4 (initState 1))
      "b" 0 0 0 0 (by decide)
  · exact C10_drain_blocking_send.2.2.2 (enqueueF "a" 1 2 3 4 (initState 1))
      (by decide) (by decide)

end Sched

namespace Pool

/-- The dedup/lookup key of the worker pool (thumbKey in main.go): source
path and target pixel dimensions. -/
structure Key where
  path : String
  wpx : Int
  hpx : Int
deriving DecidableEq, Repr

/-- Environment of the pool: the outcome of thumb.GenerateRect for a key
(some cachePath on success, none on failure). -/
structure PEnv where
  genResult : Key → Option String

/-- Pool state: the ready map thumbReady, the in-flight set thumbInflight,
the bounded dispatch channel thumbQ (capacity 256) and the single-slot
repaint signal repaintCh. -/
structure PState where
  ready : Key → Option String
  inflight : Key → Bool
  queue : List Key
  repaint : Bool

/-- Initial pool state in runGridTUI: empty maps, empty queue. -/
def initP : PState :=
  { ready := fun _ => none
    inflight := fun _ => false
    queue := []
    repaint := false }

/-- Capacity of thumbQ (main.go: make with buffer 256). -/
def qcap : Nat := 256

/-- The ensureThumb closure (main.go lines 533-549), state effect under the
single lock: a ready hit changes nothing; a key already in flight changes
nothing; otherwise the key is inserted into the in-flight set and then
dispatched to thumbQ with a non-blocking send, which silently drops the
dispatch when the channel is full. -/
def ensureF (k : Key) (s : PState) : PState :=
  match s.ready k with
  | some _ => s
  | none =>
      if s.inflight k then s
      else
        let s1 : PState :=
          { s with inflight := fun k' => if k' = k then true else s.inflight k' }
        if s1.queue.length < qcap then { s1 with queue := s1.queue ++ [k] }
        else s1

/-- One worker iteration (main.go lines 511-530): dequeue a key, run
GenerateRect, and under the lock record the result in the ready map on
success and unconditionally delete the key from the in-flight set, then
raise the coalesced repaint signal. -/
def workStep (e : PEnv) (s : PState) : PState :=
  match s.queue with
  | [] => s
  | k :: rest =>
      match e.genResult k with
      | some tp =>
          { s with queue := rest
                   ready := fun k' => if k' = k then some tp else s.ready k'
                   inflight := fun k' => if k' = k then false else s.inflight k'
                   repaint := true }
      | none =>
          { s with queue := rest
                   inflight := fun k' => if k' = k then false else s.inflight k'
                   repaint := true }

/-- Interleavings of ensureThumb calls and worker iterations. -/
inductive POp where
  | ensure (k : Key)
  | work
deriving DecidableEq, Repr

def applyOp (e : PEnv) (s : PState) : POp → PState
  | .ensure k => ensureF k s
  | .work => workStep e s

def runPool (e : PEnv) (s : PState) (ops : List POp) : PState :=
  ops.foldl (applyOp e) s

lemma ensureF_inflight_mono (k k' : Key) (s : PState)
    (h : s.inflight k = true) : (ensureF k' s).inflight k = true := by
  unfold ensureF
  rcases hr : s.ready k' with _ | tp
  · by_cases hin : s.inflight k' = true
    · simp [hin, h]
    · simp only [Bool.not_eq_true] at hin
      simp only [hin, Bool.false_eq_true, if_false]
      split
      · by_cases hk : k = k' <;> simp [hk, h]
      · by_cases hk : k = k' <;> simp [hk, h]
  · exact h

lemma ensureF_queue_not_mem (k k' : Key) (s : PState)
    (h : k ∉ s.queue) (hin : s.inflight k = true) :
    k ∉ (ensureF k' s).queue := by
  unfold ensureF
  rcases hr : s.ready k' with _ | tp
  · by_cases hink : s.inflight k' = true
    · simp [hink, h]
    · simp only [Bool.not_eq_true] at hink
      have hne : k ≠ k' := by
        intro he
        rw [he] at hin
        rw [hin] at hink
        exact Bool.true_eq_false.mp hink
      simp only [hink, Bool.false_eq_true, if_false]
      split
      · intro hmem
        rcases List.mem_append.mp hmem with hmem | hmem
        · exact h hmem
        · exact hne (List.mem_singleton.mp hmem)
      · exact h
  · exact h

lemma workStep_inflight_other (e : PEnv) (s : PState) (k k₀ : Key)
    (rest : List Key) (hq : s.queue = k₀ :: rest) (hne : k ≠ k₀) :
    (workStep e s).inflight k = s.inflight k ∧ (workStep e s).queue = rest := by
  unfold workStep
  rw [hq]
  rcases hg : e.genResult k₀ with _ | tp <;> simp [hg, hne]

lemma workStep_removes (e : PEnv) (s : PState) (k : Key) (rest : List Key)
    (hq : s.queue = k :: rest) : (workStep e s).inflight k = false := by
  unfold workStep
  rw [hq]
  rcases hg : e.genResult k with _ | tp <;> simp [hg]

lemma stuck_step (e : PEnv) (k : Key) (s : PState) (op : POp)
    (h1 : s.inflight k = true) (h2 : k ∉ s.queue) :
    (applyOp e s op).inflight k = true ∧ k ∉ (applyOp e s op).queue := by
  cases op with
  | ensure k' =>
      exact ⟨ensureF_inflight_mono k k' s h1, ensureF_queue_not_mem k k' s h2 h1⟩
  | work =>
      rcases hq : s.queue with _ | ⟨k₀, rest⟩
      · have : workStep e s = s := by
          unfold workStep
          rw [hq]
        rw [applyOp, this]
        exact ⟨h1, h2⟩
      · have hne : k ≠ k₀ := by
          intro he
          rw [hq] at h2
          exact h2 (he ▸ List.mem_cons_self k₀ rest)
        obtain ⟨hin, hqu⟩ := workStep_inflight_other e s k k₀ rest hq hne
        refine ⟨by rw [applyOp, hin]; exact h1, ?_⟩
        rw [applyOp, hqu]
        intro hmem
        rw [hq] at h2
        exact h2 (List.mem_cons_of_mem k₀ hmem)

lemma stuck_run (e : PEnv) (k : Key) (ops : List POp) :
    ∀ s : PState, s.inflight k = true → k ∉ s.queue →
      (runPool e s ops).inflight k = true ∧ k ∉ (runPool e s ops).queue := by
  induction ops with
  | nil => exact fun s h1 h2 => ⟨h1, h2⟩
  | cons op ops ih =>
      intro s h1 h2
      obtain ⟨h1', h2'⟩ := stuck_step e k s op h1 h2
      exact ih (applyOp e s op) h1' h2'

lemma ensureF_enqueue (k : Key) (s : PState) (hr : s.ready k = none)
    (hin : s.inflight k = false) (hlen : s.queue.length < qcap) :
    ensureF k s =
      { s with inflight := fun k' => if k' = k then true else s.inflight k'
               queue := s.queue ++ [k] } := by
  unfold ensureF
  rw [hr]
  simp only [hin, Bool.false_eq_true, if_false, hlen, if_true]

lemma ensureF_dropped (k : Key) (s : PState) (hr : s.ready k = none)
    (hin : s.inflight k = false) (hlen : ¬ s.queue.length < qcap) :
    ensureF k s =
      { s with inflight := fun k' => if k' = k then true else s.inflight k' } := by
  unfold ensureF
  rw [hr]
  simp only [hin, Bool.false_eq_true, if_false, hlen]

lemma runPool_append (e : PEnv) (s : PState) (l1 l2 : List POp) :
    runPool e s (l1 ++ l2) = runPool e (runPool e s l1) l2 :=
  List.foldl_append _ _ _ _

lemma runPool_single (e : PEnv) (s : PState) (op : POp) :
    runPool e s [op] = applyOp e s op := rfl

lemma applyOp_ensure (e : PEnv) (s : PState) (k : Key) :
    applyOp e s (.ensure k) = ensureF k s := rfl

/-- Effect of a burst of ensureThumb calls for pairwise-distinct keys that
are neither ready nor in flight, while the dispatch queue has room for all
of them: each key is appended to the queue and marked in flight; the ready
map is untouched. -/
lemma ensures_build (e : PEnv) (ks : List Key) :
    ∀ s : PState,
      (∀ k ∈ ks, s.ready k = none) →
      (∀ k ∈ ks, s.inflight k = false) →
      ks.Nodup →
      s.queue.length + ks.length ≤ qcap →
      (runPool e s (ks.map POp.ensure)).queue = s.queue ++ ks ∧
      (runPool e s (ks.map POp.ensure)).ready = s.ready ∧
      (∀ k, (runPool e s (ks.map POp.ensure)).inflight k =
        (s.inflight k || decide (k ∈ ks))) := by
  induction ks with
  | nil =>
      intro s _ _ _ _
      refine ⟨by simp [runPool], rfl, ?_⟩
      intro k
      simp [runPool]
  | cons k ks ih =>
      intro s hr hin hnd hlen
      have hlt : s.queue.length < qcap := by
        simp only [List.length_cons] at hlen
        omega
      have hstep := ensureF_enqueue k s (hr k (by simp)) (hin k (by simp)) hlt
      have hrun : runPool e s ((k :: ks).map POp.ensure) =
          runPool e (ensureF k s) (ks.map POp.ensure) := rfl
      have hknotin : k ∉ ks := (List.nodup_cons.mp hnd).1
      obtain ⟨ihq, ihr, ihf⟩ := ih (ensureF k s)
        (by
          intro k' hk'
          rw [hstep]
          exact hr k' (by simp [hk']))
        (by
          intro k' hk'
          rw [hstep]
          simp only []
          have hne : k' ≠ k := by
            intro he
            exact hknotin (he ▸ hk')
          rw [if_neg hne]
          exact hin k' (by simp [hk']))
        (List.nodup_cons.mp hnd).2
        (by
          rw [hstep]
          have hlapp : (s.queue ++ [k]).length = s.queue.length + 1 := by
            simp
          simp only [List.length_cons] at hlen
          rw [hlapp]
          omega)
      rw [hrun]
      refine ⟨?_, ?_, ?_⟩
      · rw [ihq, hstep]
        simp
      · rw [ihr, hstep]
      · intro k'
        rw [ihf k', hstep]
        simp only []
        by_cases hk : k' = k
        · subst hk
          simp
        · simp [hk]

/-- The 256 distinct keys that fill the dispatch queue. -/
def cexKeys : List Key :=
  (List.range 256).map fun i : Nat => ⟨"p", (i : Int), 0⟩

/-- A further fresh key ensured while the queue is full. -/
def cexKey : Key := ⟨"q", 0, 0⟩

/-- Failure outcomes are irrelevant here; let every generation succeed. -/
def cexEnv : PEnv := ⟨fun _ => some "t"⟩

def cexOps : List POp := cexKeys.map POp.ensure ++ [POp.ensure cexKey]

/-- The pool state after 257 ensureThumb calls for 257 distinct keys from
the initial state. -/
def cexState : PState := runPool cexEnv initP cexOps

lemma cexKeys_length : cexKeys.length = 256 := by
  rw [cexKeys, List.length_map, List.length_range]

lemma cexKeys_nodup : cexKeys.Nodup := by
  rw [cexKeys]
  refine List.Nodup.map ?_ (List.nodup_range 256)
  intro a b hab
  have hw : ((a : Int)) = ((b : Int)) := congrArg Key.wpx hab
  exact_mod_cast hw

lemma cexKey_not_mem : cexKey ∉ cexKeys := by
  intro hmem
  rcases List.mem_map.mp hmem with ⟨i, _, hi⟩
  have hp : "p" = "q" := congrArg Key.path hi
  exact absurd hp (by decide)

lemma cexState_spec :
    cexState.inflight cexKey = true ∧ cexState.queue = cexKeys := by
  obtain ⟨hq, hr, hf⟩ := ensures_build cexEnv cexKeys initP
    (fun k _ => rfl) (fun k _ => rfl) cexKeys_nodup
    (by rw [cexKeys_length]; decide)
  generalize hM : runPool cexEnv initP (cexKeys.map POp.ensure) = M at hq hr hf
  have hcex : cexState = ensureF cexKey M := by
    rw [cexState, cexOps, runPool_append, runPool_single, applyOp_ensure, hM]
  have hmr : M.ready cexKey = none := by
    rw [hr]
    rfl
  have hmin : M.inflight cexKey = false := by
    rw [hf cexKey]
    have hdec : decide (cexKey ∈ cexKeys) = false :=
      decide_eq_false cexKey_not_mem
    rw [hdec]
    rfl
  have hmq : M.queue = cexKeys := by
    rw [hq]
    rfl
  have hfull : ¬ M.queue.length < qcap := by
    rw [hmq, cexKeys_length]
    decide
  have hstep := ensureF_dropped cexKey M hmr hmin hfull
  constructor
  · rw [hcex, hstep]
    simp
  · rw [hcex, hstep]
    exact hmq

/-- C2 counterexample: in the reachable pool state cexState, obtained from
the initial state by 257 ensureThumb calls for 257 distinct fresh keys, the
257th key cexKey was added to the In-Flight Set by its ensure call, but its
dispatch was silently dropped because the 256-slot queue was full; the key
is not in the queue, and no continuation of the run (any interleaving of
further ensureThumb calls and worker iterations) ever removes it from the
In-Flight Set, contradicting the claim that every such entry is removed
exactly once by the worker that completes its generation. -/
theorem C2_counterexample :
    cexState.inflight cexKey = true ∧
    cexKey ∉ cexState.queue ∧
    ∀ ops : List POp,
      (runPool cexEnv cexState ops).inflight cexKey = true := by
  obtain ⟨h1, h2⟩ := cexState_spec
  have hnm : cexKey ∉ cexState.queue := by
    rw [h2]
    exact cexKey_not_mem
  exact ⟨h1, hnm, fun ops => (stuck_run cexEnv cexKey ops cexState h1 hnm).1⟩

/-- C2 as amended: a key whose dispatch is accepted by the worker queue is
removed from the In-Flight Set by the worker that dequeues and completes
it, on success and on failure alike (conjunct 1, with no hypothesis on the
generation outcome); no ensureThumb call ever removes an in-flight entry
(conjunct 2) and a worker completing a different key does not either
(conjunct 3); but a key whose dispatch was dropped because the queue was
full stays in the In-Flight Set under every continuation (conjunct 4). -/
theorem C2_inflight_removal :
    (∀ (e : PEnv) (s : PState) (k : Key) (rest : List Key),
        s.queue = k :: rest → (workStep e s).inflight k = false) ∧
    (∀ (k k' : Key) (s : PState), s.inflight k = true →
        (ensureF k' s).inflight k = true) ∧
    (∀ (e : PEnv) (s : PState) (k k₀ : Key) (rest : List Key),
        s.queue = k₀ :: rest → k ≠ k₀ → s.inflight k = true →
        (workStep e s).inflight k = true) ∧
    (∀ (e : PEnv) (k : Key) (s : PState), s.inflight k = true →
        k ∉ s.queue → ∀ ops : List POp,
          (runPool e s ops).inflight k = true) := by
  refine ⟨workStep_removes, ensureF_inflight_mono, ?_, ?_⟩
  · intro e s k k₀ rest hq hne hin
    rw [(workStep_inflight_other e s k k₀ rest hq hne).1]
    exact hin
  · intro e k s h1 h2 ops
    exact (stuck_run e k ops s h1 h2).1

theorem C2_inflight_removal_witness :
    ((workStep ⟨fun _ => some "t"⟩
        { ready := fun _ => none, inflight := fun _ => true,
          queue := [⟨"a", 1, 1⟩], repaint := false }).inflight
        ⟨"a", 1, 1⟩ = false) ∧
    ((ensureF ⟨"b", 2, 2⟩
        { ready := fun _ => none, inflight := fun _ => true,
          queue := [], repaint := false }).inflight ⟨"a", 1, 1⟩ = true) ∧
    ((workStep ⟨fun _ => none⟩
        { ready := fun _ => none, inflight := fun _ => true,
          queue := [⟨"b", 2, 2⟩], repaint := false }).inflight
        ⟨"a", 1, 1⟩ = true) ∧
    ((runPool ⟨fun _ => none⟩
        { ready := fun _ => none, inflight := fun _ => true,
          queue := [], repaint := false }
        [POp.work, POp.ensure ⟨"c", 3, 3⟩]).inflight ⟨"a", 1, 1⟩ = true) := by
  refine ⟨?_, ?_, ?_, ?_⟩
  · exact C2_inflight_removal.1 _ _ ⟨"a", 1, 1⟩ [] rfl
  · exact C2_inflight_removal.2.1 ⟨"a", 1, 1⟩ ⟨"b", 2, 2⟩ _ rfl
  · exact C2_inflight_removal.2.2.1 _ _ ⟨"a", 1, 1⟩ ⟨"b", 2, 2⟩ [] rfl
      (by decide) rfl
  · exact C2_inflight_removal.2.2.2 _ ⟨"a", 1, 1⟩ _ rfl (by simp)
      [POp.work, POp.ensure ⟨"c", 3, 3⟩]

end Pool

namespace Thumb

/-- Cache format version constant of service.go. -/
def cacheVersion : String := "ffmpeg-v1"

/-- ASCII lowering, modelling strings.ToLower as used on environment
variable values and file extensions. -/
def toLowerStr (s : String) : String :=
  String.mk (s.toList.map Char.toLower)

/-- Scan of filepath.Ext: walk the path backwards accumulating characters;
stop with empty result at a path separator, return from the last dot
(inclusive) otherwise. -/
def extAux : List Char → List Char → String
  | [], _ => ""
  | c :: rest, acc =>
      if c = '/' then ""
      else if c = '.' then String.mk (c :: acc)
      else extAux rest (c :: acc)

/-- filepath.Ext of a path. -/
def extOf (p : String) : String := extAux p.toList.reverse []

/-- Extensions classified as video in srcFrameSuffix. -/
def videoExts : List String :=
  [".mp4", ".mov", ".mkv", ".webm", ".avi", ".m4v"]

/-- srcFrameSuffix: the frame selector appended to the magick source
argument for video inputs. -/
def srcFrameSuffix (path : String) : String :=
  if videoExts.contains (toLowerStr (extOf path)) then "[0]" else ""

/-- isVideo from service.go. -/
def isVideo (path : String) : Bool := srcFrameSuffix path != ""

/-- The local max helper of service.go (Go int max over two arguments). -/
def maxInt (a b : Int) : Int := if a > b then a else b

/-- SHA-1 hex digest, abstracted: the digest is modelled as the identity on
the preimage string.  Every claim below uses the key only as a
deterministic function of its inputs, never a property of SHA-1 itself. -/
def sha1hex (s : String) : String := s

/-- cacheKey: fingerprint of a square request, hashing absolute path,
size, mtime (unix seconds), file size and the cache version, joined by
pipe separators. -/
def cacheKey (path : String) (size : Int) (mtUnix : Int) (fsz : Int) :
    String :=
  sha1hex (path ++ "|" ++ toString size ++ "|" ++ toString mtUnix ++ "|" ++
    toString fsz ++ "|" ++ cacheVersion)

/-- cacheKeyRect: fingerprint of a rectangular request; the dimensions are
joined with an x instead of a single size. -/
def cacheKeyRect (path : String) (w h : Int) (mtUnix : Int) (fsz : Int) :
    String :=
  sha1hex (path ++ "|" ++ toString w ++ "x" ++ toString h ++ "|" ++
    toString mtUnix ++ "|" ++ toString fsz ++ "|" ++ cacheVersion)

/-- Result of os.Stat on a source file: modification time (unix seconds)
and byte size. -/
structure FileInfo where
  modTimeUnix : Int
  size : Int
deriving DecidableEq, Repr

/-- An external subprocess invocation performed by the generation
service. -/
inductive Cmd where
  | ffprobe (src : String)
  | ffmpeg (src : String) (seek : ℚ) (w h : Int) (out : String)
  | vips (src : String) (size : Int) (out : String)
  | magick (src : String) (w h : Int) (out : String)
deriving DecidableEq, Repr

/-- Errors returned by Generate and GenerateRect. -/
inductive GenErr where
  | statFailed
  | mkdirFailed
  | noTool
deriving DecidableEq, Repr

/-- Mutable world threaded through a generation call: the set of existing
files, the trace of subprocess invocations in order, and the CreateTemp
freshness counter. -/
structure St where
  fs : List String
  cmds : List Cmd
  tmpN : Nat
deriving DecidableEq, Repr

/-- Fixed environment of a generation call: path resolution, source stat
results, executable lookup, environment variables, temp-file naming, the
parsed ffprobe output (none when the probe command fails or its output is
empty, N/A or unparsable), and the success of each tool invocation. -/
structure Env where
  isAbs : String → Bool
  absOf : String → String
  stat : String → Option FileInfo
  mkdirOk : String → Bool
  hasExec : String → Bool
  getenv : String → String
  tempName : String → Nat → String
  probeParsed : String → Option ℚ
  ffmpegOk : String → Int → Int → Bool
  vipsOk : String → Int → Bool
  magickOk : String → Int → Int → Bool

/-- The abs computation at the head of Generate and GenerateRect. -/
def absPath (e : Env) (p : String) : String :=
  if e.isAbs p then p else e.absOf p

/-- probeDuration: parse the ffprobe output and reject non-positive
durations with an error. -/
def probeDuration (e : Env) (abs : String) : Option ℚ :=
  match e.probeParsed abs with
  | none => none
  | some d => if d > 0 then some d else none

/-- First assignment of the seek clamp in ffmpegGrab: s is one tenth of
the duration. -/
def seekRaw (d : ℚ) : ℚ := d * (1 / 10)

/-- Second assignment: raise s to at least 0.5. -/
def seekFloor (d : ℚ) : ℚ :=
  if seekRaw d < 1 / 2 then 1 / 2 else seekRaw d

/-- Third assignment: cap the result at duration minus 0.1.  The three
steps together are the seek clamp of ffmpegGrab, in source order: the 0.5
floor is applied before the cap. -/
def clampSeek (d : ℚ) : ℚ :=
  if seekFloor d > d - 1 / 10 then d - 1 / 10 else seekFloor d

/-- The seek offset ffmpegGrab passes to ffmpeg: 2.0 unless ffprobe is on
the path and probing yields a positive duration, in which case the clamped
formula applies. -/
def grabSeek (e : Env) (abs : String) : ℚ :=
  if e.hasExec "ffprobe" then
    match probeDuration e abs with
    | some d => if d > 0 then clampSeek d else 2
    | none => 2
  else 2

/-- Dimension fixup at the head of ffmpegGrab: non-positive width or
height collapse to a square of the larger dimension, defaulting to 256. -/
def grabDims (w h : Int) : Int × Int :=
  if w ≤ 0 ∨ h ≤ 0 then
    let size := maxInt w h
    let size1 := if size ≤ 0 then 256 else size
    (size1, size1)
  else (w, h)

/-- The ffmpeg run outcome for a source and target box. -/
def ffmpegRunOk (e : Env) (abs : String) (w h : Int) : Bool :=
  e.ffmpegOk abs (grabDims w h).1 (grabDims w h).2

/-- ffmpegGrab: optionally run ffprobe to compute the seek offset, then
run ffmpeg writing a single padded frame to out.  Returns the updated
world and whether ffmpeg exited with code 0. -/
def ffmpegGrab (e : Env) (st : St) (abs : String) (w h : Int)
    (out : String) : St × Bool :=
  let wh := grabDims w h
  let st1 := if e.hasExec "ffprobe" then
      { st with cmds := st.cmds ++ [.ffprobe abs] }
    else st
  let st2 := { st1 with
    cmds := st1.cmds ++ [.ffmpeg abs (grabSeek e abs) wh.1 wh.2 out] }
  (st2, e.ffmpegOk abs wh.1 wh.2)

/-- os.CreateTemp in the cache directory: a fresh name from the counter;
the file exists from this point on. -/
def createTemp (e : Env) (st : St) (dir : String) : St × String :=
  let tmp := e.tempName dir st.tmpN
  ({ st with fs := tmp :: st.fs, tmpN := st.tmpN + 1 }, tmp)

/-- os.Rename src dst. -/
def renameFile (st : St) (src dst : String) : St :=
  { st with fs := dst :: st.fs.erase src }

/-- os.Remove p. -/
def removeFile (st : St) (p : String) : St :=
  { st with fs := st.fs.erase p }

/-- One tool-chain attempt, the shape shared by every branch of Generate
and GenerateRect: create a temp file, run the tool, and on success rename
the temp file onto the cache entry and return it; on failure remove the
temp file and fall through. -/
def attempt (e : Env) (st : St) (cacheDir out : String)
    (run : St → String → St × Bool) : St × Option String :=
  if (run (createTemp e st cacheDir).1 (createTemp e st cacheDir).2).2 then
    (renameFile (run (createTemp e st cacheDir).1 (createTemp e st cacheDir).2).1
      (createTemp e st cacheDir).2 out, some out)
  else
    (removeFile (run (createTemp e st cacheDir).1 (createTemp e st cacheDir).2).1
      (createTemp e st cacheDir).2, none)

/-- Guard of the ffmpeg branch: video source, ffmpeg resolvable and the
THUMBGRID_VIDEO_TOOL override not set to magick. -/
def videoToolGuard (e : Env) (abs : String) : Bool :=
  isVideo abs && e.hasExec "ffmpeg" &&
    (toLowerStr (e.getenv "THUMBGRID_VIDEO_TOOL") != "magick")

/-- Guard of the vipsthumbnail branch: image source, vipsthumbnail
resolvable and the THUMBGRID_IMAGE_TOOL override not set to magick. -/
def imageToolGuard (e : Env) (abs : String) : Bool :=
  !(isVideo abs) && e.hasExec "vipsthumbnail" &&
    (toLowerStr (e.getenv "THUMBGRID_IMAGE_TOOL") != "magick")

/-- The vipsthumbnail invocation of the image branch as a run function. -/
def vipsRun (e : Env) (abs : String) (size : Int) :
    St → String → St × Bool := fun st' tmp =>
  ({ st' with cmds := st'.cmds ++ [.vips abs size tmp] }, e.vipsOk abs size)

/-- The magick invocation (source argument carries the frame-select
suffix) as a run function. -/
def magickRun (e : Env) (abs : String) (w h : Int) :
    St → String → St × Bool := fun st' tmp =>
  ({ st' with cmds := st'.cmds ++
      [.magick (abs ++ srcFrameSuffix abs) w h tmp] },
    e.magickOk abs w h)

/-- The ffmpegGrab invocation as a run function. -/
def ffmpegRun (e : Env) (abs : String) (w h : Int) :
    St → String → St × Bool := fun st' tmp => ffmpegGrab e st' abs w h tmp

/-- Last stage of the square tool chain: the universal magick fallback,
exhaustion error when it fails or is absent. -/
def toolchainMagick (e : Env) (st2 : St) (abs : String) (size : Int)
    (cacheDir out : String) : St × Except GenErr String :=
  match (if e.hasExec "magick" then
      attempt e st2 cacheDir out (magickRun e abs size size)
    else (st2, none)) with
  | (st3, some o) => (st3, .ok o)
  | (st3, none) => (st3, .error .noTool)

/-- Middle stage of the square tool chain: the vipsthumbnail image branch,
falling through to magick. -/
def toolchainVips (e : Env) (st1 : St) (abs : String) (size : Int)
    (cacheDir out : String) : St × Except GenErr String :=
  match (if imageToolGuard e abs then
      attempt e st1 cacheDir out (vipsRun e abs size)
    else (st1, none)) with
  | (st2, some o) => (st2, .ok o)
  | (st2, none) => toolchainMagick e st2 abs size cacheDir out

/-- The ordered square tool chain of Generate after a cache miss: ffmpeg
for videos, vipsthumbnail for images, magick as the universal fallback,
exhaustion error when no strategy succeeds. -/
def toolchain (e : Env) (st : St) (abs : String) (size : Int)
    (cacheDir out : String) : St × Except GenErr String :=
  match (if videoToolGuard e abs then
      attempt e st cacheDir out (ffmpegRun e abs size size)
    else (st, none)) with
  | (st1, some o) => (st1, .ok o)
  | (st1, none) => toolchainVips e st1 abs size cacheDir out

/-- The canonical cache entry path for a key in a cache directory. -/
def outPath (cacheDir key : String) : String :=
  cacheDir ++ "/" ++ key ++ ".png"

/-- The cache entry path Generate computes for a request. -/
def genOut (e : Env) (path : String) (size : Int) (cacheDir : String)
    (info : FileInfo) : String :=
  outPath cacheDir (cacheKey (absPath e path) size info.modTimeUnix info.size)

/-- The cache entry path GenerateRect computes for a request. -/
def genOutRect (e : Env) (path : String) (w h : Int) (cacheDir : String)
    (info : FileInfo) : String :=
  outPath cacheDir
    (cacheKeyRect (absPath e path) w h info.modTimeUnix info.size)

/-- Generate (service.go lines 25-98): resolve the path, stat the source,
compute the fingerprint, ensure the cache directory, return on a cache
stat hit, otherwise walk the square tool chain. -/
def Generate (e : Env) (st : St) (path : String) (size : Int)
    (cacheDir : String) : St × Except GenErr String :=
  match e.stat (absPath e path) with
  | none => (st, .error .statFailed)
  | some info =>
    if e.mkdirOk cacheDir then
      if genOut e path size cacheDir info ∈ st.fs then
        (st, .ok (genOut e path size cacheDir info))
      else
        toolchain e st (absPath e path) size cacheDir
          (genOut e path size cacheDir info)
    else (st, .error .mkdirFailed)

/-- Second rect-shaped strategy of GenerateRect: magick with the exact
target box. -/
def rectMagick (e : Env) (st1 : St) (abs : String) (w h : Int)
    (cacheDir out : String) : St × Option String :=
  if e.hasExec "magick" then
    attempt e st1 cacheDir out (magickRun e abs w h)
  else (st1, none)

/-- The rect-shaped strategies of GenerateRect: ffmpeg for videos, then
magick; none when both fail or are inapplicable. -/
def rectToolchain (e : Env) (st : St) (abs : String) (w h : Int)
    (cacheDir out : String) : St × Option String :=
  match (if videoToolGuard e abs then
      attempt e st cacheDir out (ffmpegRun e abs w h)
    else (st, none)) with
  | (st1, some o) => (st1, some o)
  | (st1, none) => rectMagick e st1 abs w h cacheDir out

/-- GenerateRect (service.go lines 117-176): non-positive dimensions
delegate to Generate on the larger dimension; otherwise resolve, stat,
fingerprint with cacheKeyRect, return on cache hit, try the rect-shaped
strategies, and fall back to the square Generate when they all fail. -/
def GenerateRect (e : Env) (st : St) (path : String) (w h : Int)
    (cacheDir : String) : St × Except GenErr String :=
  if w ≤ 0 ∨ h ≤ 0 then Generate e st path (maxInt w h) cacheDir
  else
    match e.stat (absPath e path) with
    | none => (st, .error .statFailed)
    | some info =>
      if e.mkdirOk cacheDir then
        if genOutRect e path w h cacheDir info ∈ st.fs then
          (st, .ok (genOutRect e path w h cacheDir info))
        else
          match rectToolchain e st (absPath e path) w h cacheDir
              (genOutRect e path w h cacheDir info) with
          | (st1, some o) => (st1, .ok o)
          | (st1, none) => Generate e st1 path (maxInt w h) cacheDir
      else (st, .error .mkdirFailed)

lemma attempt_spec (e : Env) (st : St) (cacheDir out : String)
    (run : St → String → St × Bool) :
    (attempt e st cacheDir out run).2 = none ∨
    ((attempt e st cacheDir out run).2 = some out ∧
      out ∈ (attempt e st cacheDir out run).1.fs) := by
  unfold attempt
  split
  · right
    exact ⟨rfl, by simp [renameFile]⟩
  · left
    rfl

lemma step_some (cond : Bool) (e : Env) (st : St) (cacheDir out : String)
    (run : St → String → St × Bool) (st1 : St) (o : String)
    (h : (if cond = true then attempt e st cacheDir out run
        else (st, none)) = (st1, some o)) :
    o = out ∧ out ∈ st1.fs := by
  by_cases hg : cond = true
  · rw [if_pos hg] at h
    rcases attempt_spec e st cacheDir out run with hn | ⟨hs, hm⟩
    · rw [h] at hn
      exact absurd hn (by simp)
    · rw [h] at hs hm
      exact ⟨by simpa using hs, by simpa using hm⟩
  · rw [if_neg hg] at h
    exact absurd (congrArg Prod.snd h) (by simp)

lemma toolchainMagick_spec (e : Env) (st2 : St) (abs : String) (size : Int)
    (cacheDir out : String) :
    (toolchainMagick e st2 abs size cacheDir out).2 = .error .noTool ∨
    ((toolchainMagick e st2 abs size cacheDir out).2 = .ok out ∧
      out ∈ (toolchainMagick e st2 abs size cacheDir out).1.fs) := by
  unfold toolchainMagick
  rcases h3 : (if e.hasExec "magick" then
      attempt e st2 cacheDir out (magickRun e abs size size)
    else (st2, none)) with ⟨st3, o3⟩
  cases o3 with
  | some o =>
      obtain ⟨ho, hm⟩ := step_some _ e st2 cacheDir out _ st3 o h3
      subst ho
      exact Or.inr ⟨rfl, hm⟩
  | none =>
      exact Or.inl rfl

lemma toolchainVips_spec (e : Env) (st1 : St) (abs : String) (size : Int)
    (cacheDir out : String) :
    (toolchainVips e st1 abs size cacheDir out).2 = .error .noTool ∨
    ((toolchainVips e st1 abs size cacheDir out).2 = .ok out ∧
      out ∈ (toolchainVips e st1 abs size cacheDir out).1.fs) := by
  unfold toolchainVips
  rcases h2 : (if imageToolGuard e abs then
      attempt e st1 cacheDir out (vipsRun e abs size)
    else (st1, none)) with ⟨st2, o2⟩
  cases o2 with
  | some o =>
      obtain ⟨ho, hm⟩ := step_some _ e st1 cacheDir out _ st2 o h2
      subst ho
      exact Or.inr ⟨rfl, hm⟩
  | none =>
      exact toolchainMagick_spec e st2 abs size cacheDir out

lemma toolchain_spec (e : Env) (st : St) (abs : String) (size : Int)
    (cacheDir out : String) :
    (toolchain e st abs size cacheDir out).2 = .error .noTool ∨
    ((toolchain e st abs size cacheDir out).2 = .ok out ∧
      out ∈ (toolchain e st abs size cacheDir out).1.fs) := by
  unfold toolchain
  rcases h1 : (if videoToolGuard e abs then
      attempt e st cacheDir out (ffmpegRun e abs size size)
    else (st, none)) with ⟨st1, o1⟩
  cases o1 with
  | some o =>
      obtain ⟨ho, hm⟩ := step_some _ e st cacheDir out _ st1 o h1
      subst ho
      exact Or.inr ⟨rfl, hm⟩
  | none =>
      exact toolchainVips_spec e st1 abs size cacheDir out

lemma generate_eq_none (e : Env) (st : St) (p : String) (size : Int)
    (d : String) (hstat : e.stat (absPath e p) = none) :
    Generate e st p size d = (st, .error .statFailed) := by
  unfold Generate
  rw [hstat]

lemma generate_eq_some (e : Env) (st : St) (p : String) (size : Int)
    (d : String) (info : FileInfo)
    (hstat : e.stat (absPath e p) = some info) :
    Generate e st p size d =
      if e.mkdirOk d = true then
        if genOut e p size d info ∈ st.fs then
          (st, .ok (genOut e p size d info))
        else
          toolchain e st (absPath e p) size d (genOut e p size d info)
      else (st, .error .mkdirFailed) := by
  unfold Generate
  rw [hstat]

lemma generate_ok (e : Env) (st : St) (p : String) (size : Int)
    (d out : String) (h : (Generate e st p size d).2 = .ok out) :
    out ∈ (Generate e st p size d).1.fs ∧
    ∃ info, e.stat (absPath e p) = some info ∧ e.mkdirOk d = true ∧
      genOut e p size d info = out := by
  rcases hstat : e.stat (absPath e p) with _ | info
  · rw [generate_eq_none e st p size d hstat] at h
    exact absurd h (by simp)
  · rw [generate_eq_some e st p size d info hstat] at h ⊢
    by_cases hmk : e.mkdirOk d = true
    · rw [if_pos hmk] at h ⊢
      by_cases hhit : genOut e p size d info ∈ st.fs
      · rw [if_pos hhit] at h ⊢
        have hout : genOut e p size d info = out := by simpa using h
        exact ⟨hout ▸ hhit, info, rfl, hmk, hout⟩
      · rw [if_neg hhit] at h ⊢
        rcases toolchain_spec e st (absPath e p) size d
            (genOut e p size d info) with hno | ⟨hok, hm⟩
        · rw [h] at hno
          exact absurd hno (by simp)
        · have hout : genOut e p size d info = out := by
            rw [h] at hok
            simpa using hok.symm
          exact ⟨hout ▸ hm, info, rfl, hmk, hout⟩
    · rw [if_neg hmk] at h
      exact absurd h (by simp)

lemma probeDuration_eq_some (e : Env) (abs : String) (d : ℚ)
    (hp : e.probeParsed abs = some d) (hd : 0 < d) :
    probeDuration e abs = some d := by
  unfold probeDuration
  rw [hp]
  simp [hd]

lemma probeDuration_eq_none_of_none (e : Env) (abs : String)
    (hp : e.probeParsed abs = none) : probeDuration e abs = none := by
  unfold probeDuration
  rw [hp]

lemma probeDuration_eq_none_of_nonpos (e : Env) (abs : String) (d : ℚ)
    (hp : e.probeParsed abs = some d) (hd : d ≤ 0) :
    probeDuration e abs = none := by
  unfold probeDuration
  rw [hp]
  simp [not_lt.mpr hd]

lemma grabSeek_eq_pos (e : Env) (abs : String) (d : ℚ)
    (hexec : e.hasExec "ffprobe" = true)
    (hpd : probeDuration e abs = some d) (hd : 0 < d) :
    grabSeek e abs = clampSeek d := by
  unfold grabSeek
  rw [hexec, hpd]
  simp [hd]

lemma grabSeek_eq_noexec (e : Env) (abs : String)
    (hexec : e.hasExec "ffprobe" = false) : grabSeek e abs = 2 := by
  unfold grabSeek
  rw [hexec]
  simp

lemma grabSeek_eq_noprobe (e : Env) (abs : String)
    (hexec : e.hasExec "ffprobe" = true)
    (hpd : probeDuration e abs = none) : grabSeek e abs = 2 := by
  unfold grabSeek
  rw [hexec, hpd]
  simp

lemma seekFloor_eq (d : ℚ) : seekFloor d = max (seekRaw d) (1 / 2) := by
  unfold seekFloor
  rcases le_or_lt (1 / 2 : ℚ) (seekRaw d) with hle | hlt
  · rw [if_neg (not_lt.mpr hle), max_eq_left hle]
  · rw [if_pos hlt, max_eq_right (le_of_lt hlt)]

lemma clampSeek_eq (d : ℚ) :
    clampSeek d = min (max (d * (1 / 10)) (1 / 2)) (d - 1 / 10) := by
  unfold clampSeek
  rw [seekFloor_eq]
  unfold seekRaw
  by_cases h2 : max (d * (1 / 10)) (1 / 2) > d - 1 / 10
  · rw [if_pos h2, min_eq_right (le_of_lt h2)]
  · rw [if_neg h2, min_eq_left (not_lt.mp h2)]

/-- Environment with no tool executables at all; stat always succeeds with
zero mtime and size, the cache directory is creatable. -/
def envNoTools : Env :=
  { isAbs := fun _ => true
    absOf := id
    stat := fun _ => some ⟨0, 0⟩
    mkdirOk := fun _ => true
    hasExec := fun _ => false
    getenv := fun _ => ""
    tempName := fun dir n => dir ++ "/thumbgrid." ++ toString n ++ ".png"
    probeParsed := fun _ => none
    ffmpegOk := fun _ _ _ => false
    vipsOk := fun _ _ => false
    magickOk := fun _ _ _ => false }

/-- Environment where only ffprobe is on the path and probing any source
parses to 0.3 seconds. -/
def envProbe : Env :=
  { envNoTools with
    hasExec := fun n => n == "ffprobe"
    probeParsed := fun _ => some (3 / 10) }

/-- The seek formula exactly as the claim words it:
max(0.5, min(0.10 times D, D minus 0.1)). -/
def specClaimSeek (d : ℚ) : ℚ :=
  max (1 / 2) (min (d * (1 / 10)) (d - 1 / 10))

/-- C5 counterexample: for a probed duration of 0.3 the code computes a
seek offset of 0.2 (the 0.5 lower bound is applied first and the result is
then capped at D minus 0.1 = 0.2), while the claim asserts the formula
max(0.5, min(0.10 D, D minus 0.1)), which evaluates to 0.5 at D = 0.3, and
asserts the value 0.5 outright.  The two differ at this input. -/
theorem C5_counterexample :
    grabSeek envProbe "v.mp4" = 1 / 5 ∧
    specClaimSeek (3 / 10) = 1 / 2 ∧
    grabSeek envProbe "v.mp4" ≠ specClaimSeek (3 / 10) := by
  have h1 : grabSeek envProbe "v.mp4" = 1 / 5 := by
    rw [grabSeek_eq_pos envProbe "v.mp4" (3 / 10) rfl
      (probeDuration_eq_some envProbe "v.mp4" (3 / 10) rfl (by norm_num))
      (by norm_num)]
    rw [clampSeek_eq]
    rw [max_eq_right (by norm_num : ((3 : ℚ) / 10) * (1 / 10) ≤ 1 / 2)]
    rw [min_eq_right (by norm_num : ((3 : ℚ) / 10) - 1 / 10 ≤ 1 / 2)]
    norm_num
  have h2 : specClaimSeek (3 / 10) = 1 / 2 := by
    unfold specClaimSeek
    rw [min_eq_left (by norm_num : ((3 : ℚ) / 10) * (1 / 10) ≤ 3 / 10 - 1 / 10)]
    rw [max_eq_left (by norm_num : ((3 : ℚ) / 10) * (1 / 10) ≤ 1 / 2)]
  refine ⟨h1, h2, ?_⟩
  rw [h1, h2]
  norm_num

/-- C5 as amended: when ffprobe is on the path and probing yields a
positive duration D, the seek offset passed to ffmpeg equals
min(max(0.10 D, 0.5), D minus 0.1) - the lower bound of 0.5 is applied
before the cap at D minus 0.1, giving 1.0 at D = 10 but 0.2 (not 0.5) at
D = 0.3; when ffprobe is absent, probing fails, or the parsed duration is
non-positive, the seek offset is 2.0. -/
theorem C5_seek_formula (e : Env) (abs : String) :
    (∀ d : ℚ, e.hasExec "ffprobe" = true → e.probeParsed abs = some d →
      0 < d →
      grabSeek e abs = min (max (d * (1 / 10)) (1 / 2)) (d - 1 / 10)) ∧
    (e.hasExec "ffprobe" = false → grabSeek e abs = 2) ∧
    (e.probeParsed abs = none → grabSeek e abs = 2) ∧
    (∀ d : ℚ, e.probeParsed abs = some d → d ≤ 0 → grabSeek e abs = 2) := by
  refine ⟨?_, ?_, ?_, ?_⟩
  · intro d hexec hprobe hd
    rw [grabSeek_eq_pos e abs d hexec
      (probeDuration_eq_some e abs d hprobe hd) hd]
    exact clampSeek_eq d
  · intro hexec
    exact grabSeek_eq_noexec e abs hexec
  · intro hprobe
    cases hexec : e.hasExec "ffprobe" with
    | false => exact grabSeek_eq_noexec e abs hexec
    | true =>
        exact grabSeek_eq_noprobe e abs hexec
          (probeDuration_eq_none_of_none e abs hprobe)
  · intro d hprobe hd
    cases hexec : e.hasExec "ffprobe" with
    | false => exact grabSeek_eq_noexec e abs hexec
    | true =>
        exact grabSeek_eq_noprobe e abs hexec
          (probeDuration_eq_none_of_nonpos e abs d hprobe hd)

/-- Environment with ffprobe present and a parsed duration of 10
seconds. -/
def envProbe10 : Env :=
  { envNoTools with
    hasExec := fun n => n == "ffprobe"
    probeParsed := fun _ => some 10 }

theorem C5_seek_formula_witness :
    grabSeek envProbe10 "v.mp4" =
      min (max ((10 : ℚ) * (1 / 10)) (1 / 2)) ((10 : ℚ) - 1 / 10) ∧
    min (max ((10 : ℚ) * (1 / 10)) (1 / 2)) ((10 : ℚ) - 1 / 10) = 1 := by
  constructor
  · exact (C5_seek_formula envProbe10 "v.mp4").1 10 rfl rfl (by norm_num)
  · rw [max_eq_left (by norm_num), min_eq_left (by norm_num)]
    norm_num

/-- C6: GenerateRect with a non-positive width or height is definitionally
the delegation to Generate on the larger dimension - same returned path,
same error, same world effects. -/
theorem C6_rect_nonpositive_delegates (e : Env) (st : St) (p : String)
    (w h : Int) (d : String) (hwh : w ≤ 0 ∨ h ≤ 0) :
    GenerateRect e st p w h d = Generate e st p (maxInt w h) d := by
  unfold GenerateRect
  rw [if_pos hwh]

/-- C4: when a Generate call succeeds, the returned path is the cache
entry path and that file exists afterwards; an immediately repeated call
with an unchanged source file (same environment) therefore hits the cache
stat check and returns the same path with a completely unchanged world -
in particular the subprocess trace is unchanged, so no external tool is
invoked. -/
theorem C4_generate_idempotent (e : Env) (st : St) (p : String)
    (size : Int) (d out : String)
    (h : (Generate e st p size d).2 = .ok out) :
    Generate e (Generate e st p size d).1 p size d =
      ((Generate e st p size d).1, .ok out) ∧
    (Generate e (Generate e st p size d).1 p size d).1.cmds =
      (Generate e st p size d).1.cmds := by
  obtain ⟨hmem, info, hstat, hmk, hout⟩ := generate_ok e st p size d out h
  have hsecond : Generate e (Generate e st p size d).1 p size d =
      ((Generate e st p size d).1, .ok out) := by
    rw [generate_eq_some e (Generate e st p size d).1 p size d info hstat]
    rw [if_pos hmk]
    rw [if_pos (show genOut e p size d info ∈ (Generate e st p size d).1.fs by
      rw [hout]; exact hmem)]
    rw [hout]
  exact ⟨hsecond, by rw [hsecond]⟩

/-- World with one pre-existing cache entry for the square request of the
C4 witness. -/
def stHit : St :=
  { fs := ["d/p|64|0|0|ffmpeg-v1.png"], cmds := [], tmpN := 0 }

theorem C4_generate_idempotent_witness :
    Generate envNoTools (Generate envNoTools stHit "p" 64 "d").1 "p" 64 "d" =
      ((Generate envNoTools stHit "p" 64 "d").1,
        .ok "d/p|64|0|0|ffmpeg-v1.png") :=
  (C4_generate_idempotent envNoTools stHit "p" 64 "d"
    "d/p|64|0|0|ffmpeg-v1.png" rfl).1

lemma attempt_snd (e : Env) (st : St) (cacheDir out : String)
    (run : St → String → St × Bool) :
    (attempt e st cacheDir out run).2 =
      if (run (createTemp e st cacheDir).1 (createTemp e st cacheDir).2).2
      then some out else none := by
  unfold attempt
  split
  · rfl
  · rfl

lemma stage_snd (cond : Bool) (e : Env) (st : St) (cacheDir out : String)
    (run : St → String → St × Bool) (b : Bool)
    (hb : ∀ st' t, (run st' t).2 = b) :
    (if cond = true then attempt e st cacheDir out run
      else (st, none)).2 =
      (if cond && b then some out else none) := by
  cases cond with
  | false => simp
  | true =>
      rw [if_pos rfl, attempt_snd, hb]
      simp

lemma toolchainMagick_snd (e : Env) (st2 : St) (abs : String) (size : Int)
    (cacheDir out : String) :
    (toolchainMagick e st2 abs size cacheDir out).2 =
      if e.hasExec "magick" && e.magickOk abs size size then .ok out
      else .error .noTool := by
  unfold toolchainMagick
  rcases h3 : (if e.hasExec "magick" = true then
      attempt e st2 cacheDir out (magickRun e abs size size)
    else (st2, none)) with ⟨st3, o3⟩
  have ho3 : o3 =
      if e.hasExec "magick" && e.magickOk abs size size then some out
      else none := by
    have hs := stage_snd (e.hasExec "magick") e st2 cacheDir out
      (magickRun e abs size size) (e.magickOk abs size size)
      (fun _ _ => rfl)
    rw [h3] at hs
    exact hs
  cases hc : (e.hasExec "magick" && e.magickOk abs size size) with
  | true =>
      rw [hc] at ho3
      simp only [if_true] at ho3
      subst ho3
      rfl
  | false =>
      rw [hc] at ho3
      simp only [Bool.false_eq_true, if_false] at ho3
      subst ho3
      rfl

lemma toolchainVips_snd (e : Env) (st1 : St) (abs : String) (size : Int)
    (cacheDir out : String) :
    (toolchainVips e st1 abs size cacheDir out).2 =
      if (imageToolGuard e abs && e.vipsOk abs size) ||
          (e.hasExec "magick" && e.magickOk abs size size) then .ok out
      else .error .noTool := by
  unfold toolchainVips
  rcases h2 : (if imageToolGuard e abs = true then
      attempt e st1 cacheDir out (vipsRun e abs size)
    else (st1, none)) with ⟨st2, o2⟩
  have ho2 : o2 =
      if imageToolGuard e abs && e.vipsOk abs size then some out
      else none := by
    have hs := stage_snd (imageToolGuard e abs) e st1 cacheDir out
      (vipsRun e abs size) (e.vipsOk abs size) (fun _ _ => rfl)
    rw [h2] at hs
    exact hs
  cases hc : (imageToolGuard e abs && e.vipsOk abs size) with
  | true =>
      rw [hc] at ho2
      simp only [if_true] at ho2
      subst ho2
      simp
  | false =>
      rw [hc] at ho2
      simp only [Bool.false_eq_true, if_false] at ho2
      subst ho2
      rw [show (match ((st2, none) : St × Option String) with
        | (st2, some o) => (st2, Except.ok o)
        | (st2, none) => toolchainMagick e st2 abs size cacheDir out) =
          toolchainMagick e st2 abs size cacheDir out from rfl]
      rw [toolchainMagick_snd]
      simp

lemma toolchain_snd (e : Env) (st : St) (abs : String) (size : Int)
    (cacheDir out : String) :
    (toolchain e st abs size cacheDir out).2 =
      if (videoToolGuard e abs && ffmpegRunOk e abs size size) ||
          (imageToolGuard e abs && e.vipsOk abs size) ||
          (e.hasExec "magick" && e.magickOk abs size size) then .ok out
      else .error .noTool := by
  unfold toolchain
  rcases h1 : (if videoToolGuard e abs = true then
      attempt e st cacheDir out (ffmpegRun e abs size size)
    else (st, none)) with ⟨st1, o1⟩
  have ho1 : o1 =
      if videoToolGuard e abs && ffmpegRunOk e abs size size then some out
      else none := by
    have hs := stage_snd (videoToolGuard e abs) e st cacheDir out
      (ffmpegRun e abs size size) (ffmpegRunOk e abs size size)
      (fun _ _ => rfl)
    rw [h1] at hs
    exact hs
  cases hc : (videoToolGuard e abs && ffmpegRunOk e abs size size) with
  | true =>
      rw [hc] at ho1
      simp only [if_true] at ho1
      subst ho1
      simp
  | false =>
      rw [hc] at ho1
      simp only [Bool.false_eq_true, if_false] at ho1
      subst ho1
      rw [show (match ((st1, none) : St × Option String) with
        | (st1, some o) => (st1, Except.ok o)
        | (st1, none) => toolchainVips e st1 abs size cacheDir out) =
          toolchainVips e st1 abs size cacheDir out from rfl]
      rw [toolchainVips_snd]
      simp

/-- C8: an individual Tool Chain attempt counts as success exactly when
the external executable exits with code 0 and the declared output file
exists after the run (conjunct 1; in this embedding the temp output file
is created before the run and tools do not delete files, so the second
condition always holds and the code only inspects the exit status); and
the square chain returns the cache path exactly when some applicable
strategy run succeeds, every failed or inapplicable strategy falling
through to the next, with the exhaustion error exactly when none succeeds
(conjunct 2). -/
theorem C8_success_criterion :
    (∀ (e : Env) (st : St) (cacheDir out : String)
        (run : St → String → St × Bool),
      (∀ st' t, ((run st' t).1).fs = st'.fs) →
      ((attempt e st cacheDir out run).2 = some out ↔
        ((run (createTemp e st cacheDir).1 (createTemp e st cacheDir).2).2 =
            true ∧
          (createTemp e st cacheDir).2 ∈
            ((run (createTemp e st cacheDir).1
              (createTemp e st cacheDir).2).1).fs))) ∧
    (∀ (e : Env) (st : St) (abs : String) (size : Int)
        (cacheDir out : String),
      ((toolchain e st abs size cacheDir out).2 = .ok out ↔
        ((videoToolGuard e abs && ffmpegRunOk e abs size size) = true ∨
          (imageToolGuard e abs && e.vipsOk abs size) = true ∨
          (e.hasExec "magick" && e.magickOk abs size size) = true)) ∧
      ((toolchain e st abs size cacheDir out).2 = .error .noTool ↔
        ¬ ((videoToolGuard e abs && ffmpegRunOk e abs size size) = true ∨
          (imageToolGuard e abs && e.vipsOk abs size) = true ∨
          (e.hasExec "magick" && e.magickOk abs size size) = true))) := by
  constructor
  · intro e st cacheDir out run hfs
    rw [attempt_snd]
    cases hr : (run (createTemp e st cacheDir).1
        (createTemp e st cacheDir).2).2 with
    | true =>
        constructor
        · intro _
          refine ⟨rfl, ?_⟩
          rw [hfs]
          simp [createTemp]
        · intro _
          simp
    | false =>
        simp
  · intro e st abs size cacheDir out
    rw [toolchain_snd]
    cases hc : ((videoToolGuard e abs && ffmpegRunOk e abs size size) ||
        (imageToolGuard e abs && e.vipsOk abs size) ||
        (e.hasExec "magick" && e.magickOk abs size size)) with
    | true =>
        simp only [Bool.or_eq_true] at hc
        constructor
        · constructor
          · intro _
            tauto
          · intro _
            simp
        · constructor
          · intro hbad
            simp at hbad
          · intro hbad
            exact absurd (by tauto : _ ∨ _ ∨ _) hbad
    | false =>
        simp only [Bool.or_eq_false_iff] at hc
        obtain ⟨⟨hA, hB⟩, hC⟩ := hc
        constructor
        · constructor
          · intro hbad
            simp at hbad
          · rintro (hd | hd | hd)
            · rw [hA] at hd
              exact absurd hd (by simp)
            · rw [hB] at hd
              exact absurd hd (by simp)
            · rw [hC] at hd
              exact absurd hd (by simp)
        · constructor
          · rintro _ (hd | hd | hd)
            · rw [hA] at hd
              exact absurd hd (by simp)
            · rw [hB] at hd
              exact absurd hd (by simp)
            · rw [hC] at hd
              exact absurd hd (by simp)
          · intro _
            simp

/-- Environment with only magick on the path, always succeeding. -/
def envMagick : Env :=
  { envNoTools with
    hasExec := fun n => n == "magick"
    magickOk := fun _ _ _ => true }

theorem C8_success_criterion_witness :
    ((attempt envMagick { fs := [], cmds := [], tmpN := 0 } "d" "o"
        (fun st' _ => (st', true))).2 = some "o" ↔
      ((fun (st' : St) (_ : String) => (st', true))
          (createTemp envMagick { fs := [], cmds := [], tmpN := 0 } "d").1
          (createTemp envMagick { fs := [], cmds := [], tmpN := 0 }
            "d").2).2 = true ∧
        (createTemp envMagick { fs := [], cmds := [], tmpN := 0 } "d").2 ∈
          (((fun (st' : St) (_ : String) => (st', true))
            (createTemp envMagick { fs := [], cmds := [], tmpN := 0 } "d").1
            (createTemp envMagick { fs := [], cmds := [], tmpN := 0 }
              "d").2).1).fs) ∧
    ((toolchain envMagick { fs := [], cmds := [], tmpN := 0 } "a.png" 64 "d"
        "o").2 = .ok "o" ↔
      ((videoToolGuard envMagick "a.png" &&
          ffmpegRunOk envMagick "a.png" 64 64) = true ∨
        (imageToolGuard envMagick "a.png" &&
          envMagick.vipsOk "a.png" 64) = true ∨
        (envMagick.hasExec "magick" &&
          envMagick.magickOk "a.png" 64 64) = true)) := by
  constructor
  · exact C8_success_criterion.1 envMagick _ "d" "o"
      (fun st' _ => (st', true)) (fun _ _ => rfl)
  · exact (C8_success_criterion.2 envMagick _ "a.png" 64 "d" "o").1

lemma generateRect_eq_some (e : Env) (st : St) (p : String) (w h : Int)
    (d : String) (info : FileInfo) (hwh : ¬(w ≤ 0 ∨ h ≤ 0))
    (hstat : e.stat (absPath e p) = some info) :
    GenerateRect e st p w h d =
      if e.mkdirOk d = true then
        if genOutRect e p w h d info ∈ st.fs then
          (st, .ok (genOutRect e p w h d info))
        else
          match rectToolchain e st (absPath e p) w h d
              (genOutRect e p w h d info) with
          | (st1, some o) => (st1, .ok o)
          | (st1, none) => Generate e st1 p (maxInt w h) d
      else (st, .error .mkdirFailed) := by
  unfold GenerateRect
  rw [if_neg hwh, hstat]

/-- C9: for positive dimensions, when the rect-shaped strategies all fail
after a rect cache miss, GenerateRect does not return the exhaustion error
itself; it returns exactly what the square Generate on the larger
dimension returns, run against the world left behind by the failed rect
attempts - so the caller may receive a square thumbnail filed under the
square fingerprint rather than the requested rectangular one. -/
theorem C9_rect_falls_back (e : Env) (st : St) (p : String) (w h : Int)
    (d : String) (info : FileInfo) (hw : 0 < w) (hh : 0 < h)
    (hstat : e.stat (absPath e p) = some info)
    (hmk : e.mkdirOk d = true)
    (hmiss : genOutRect e p w h d info ∉ st.fs)
    (hfail : (rectToolchain e st (absPath e p) w h d
        (genOutRect e p w h d info)).2 = none) :
    GenerateRect e st p w h d =
      Generate e (rectToolchain e st (absPath e p) w h d
        (genOutRect e p w h d info)).1 p (maxInt w h) d := by
  rw [generateRect_eq_some e st p w h d info (by omega) hstat]
  rw [if_pos hmk, if_neg hmiss]
  rcases hrt : rectToolchain e st (absPath e p) w h d
    (genOutRect e p w h d info) with ⟨st1, o1⟩
  rw [hrt] at hfail
  have ho1 : o1 = none := hfail
  subst ho1
  rfl

theorem C9_rect_falls_back_witness :
    GenerateRect envNoTools { fs := [], cmds := [], tmpN := 0 } "p" 64 64
        "d" =
      Generate envNoTools
        (rectToolchain envNoTools { fs := [], cmds := [], tmpN := 0 }
          (absPath envNoTools "p") 64 64 "d"
          (genOutRect envNoTools "p" 64 64 "d" ⟨0, 0⟩)).1 "p"
        (maxInt 64 64) "d" :=
  C9_rect_falls_back envNoTools { fs := [], cmds := [], tmpN := 0 } "p" 64
    64 "d" ⟨0, 0⟩ (by decide) (by decide) rfl rfl (by simp) rfl

theorem C6_rect_nonpositive_delegates_witness :
    GenerateRect envNoTools { fs := [], cmds := [], tmpN := 0 } "p" 0 0 "d" =
      Generate envNoTools { fs := [], cmds := [], tmpN := 0 } "p"
        (maxInt 0 0) "d" :=
  C6_rect_nonpositive_delegates envNoTools { fs := [], cmds := [], tmpN := 0 }
    "p" 0 0 "d" (Or.inl (by decide))

end Thumb

end Thumbgrid
